import Mathlib

/-!
# Verification of the sdream image-generation proxy server

Shallow embedding of `src/server.js` (the most complete revision, the first
document in the file). JavaScript values flowing through the Express
handlers are modelled by the inductive type `JVal`; the handlers and the
resilient HTTP client `fetchRetry` are modelled as pure functions over an
explicit sequence of upstream outcomes (one outcome per attempted fetch).
-/

/-- A JSON / JavaScript value, as handled by the server.  `undefined` models
JavaScript `undefined` (absent properties reached via optional chaining);
numbers are modelled as rationals (IEEE doubles of the magnitudes used by
the server embed faithfully). -/
inductive JVal where
  | undefined : JVal
  | nul : JVal
  | bool (b : Bool) : JVal
  | num (q : Rat) : JVal
  | str (s : String) : JVal
  | arr (elems : List JVal) : JVal
  | obj (fields : List (String × JVal)) : JVal

/-- First binding of a key in an object's field list, `undefined` when absent. -/
def lookupField : List (String × JVal) → String → JVal
  | [], _ => .undefined
  | (k, v) :: rest, key => if k = key then v else lookupField rest key

/-- `v?.key` — optional-chained property access: `undefined` on anything
that is not an object carrying the key. -/
def getField : JVal → String → JVal
  | .obj fs, key => lookupField fs key
  | _, _ => .undefined

/-- JavaScript truthiness of a value. -/
def truthy : JVal → Bool
  | .undefined => false
  | .nul => false
  | .bool b => b
  | .num q => !(q = 0 : Bool)
  | .str s => !(s = "" : Bool)
  | .arr _ => true
  | .obj _ => true

/-- `v == null || v == undefined`, the values coalesced by `??`. -/
def nullish : JVal → Bool
  | .undefined => true
  | .nul => true
  | _ => false

/-- `v ?? null` as used in the response builders of `/api/generate`. -/
def orNull (v : JVal) : JVal := if nullish v then .nul else v

/-- `Array.isArray(v) ? some elems : none`. -/
def asArray : JVal → Option (List JVal)
  | .arr xs => some xs
  | _ => none

/-- The output-normalisation ternary chain of `/api/generate`
(both the single and the batch branch use the same chain):
`Array.isArray(o) ? o : Array.isArray(o?.images) ? o.images :
 Array.isArray(o?.data) ? o.data : null`, with `some` for a found list
and `none` for the final `null`. -/
def normalizeOutput (output : JVal) : Option (List JVal) :=
  match asArray output with
  | some xs => some xs
  | none =>
    match asArray (getField output "images") with
    | some xs => some xs
    | none => asArray (getField output "data")

/-- `outputs || null` — the normalised list is placed in the response as an
array, `null` when normalisation found none (an empty array is truthy). -/
def outputsOrNull (o : Option (List JVal)) : JVal :=
  match o with
  | some xs => .arr xs
  | none => .nul

/-! ## Resilient HTTP client (`fetchRetry`, `server.js` lines 36-97) -/

/-- One upstream attempt as observed by `abortableFetch`: either a completed
HTTP response (status, body text, and the JSON parse of the body when the
body parses), or a thrown network/abort error with its message. -/
inductive Outcome where
  | resp (status : Nat) (raw : String) (json : Option JVal)
  | err (msg : String)

/-- The pair produced by `readResp`, plus the response status: `raw` is the
body text and `json` its parse (`none` when `JSON.parse` threw). -/
structure UResp where
  status : Nat
  raw : String
  json : Option JVal

/-- `body.json ?? JSON.parse(body.raw || "{}")`: the parsed body when it
parsed, `{}` for an empty body, and `none` (the re-parse throws) when a
non-empty body does not parse as JSON. -/
def parseOrEmpty (r : UResp) : Option JVal :=
  match r.json with
  | some v => some v
  | none => if r.raw = "" then some (.obj []) else none

/-- Does `pat` occur starting at the head of `l`? -/
def startsHere : List Char → List Char → Bool
  | [], _ => true
  | _ :: _, [] => false
  | p :: ps, c :: cs => (c = p : Bool) && startsHere ps cs

/-- Does `pat` occur anywhere in `l`?  (`String.prototype.includes`.) -/
def containsChars (pat : List Char) : List Char → Bool
  | [] => startsHere pat []
  | c :: cs => startsHere pat (c :: cs) || containsChars pat (cs)

/-- `(s).toLowerCase().includes(pat)` for a lowercase pattern `pat`.
The source applies this to `"" + err`, which prepends `"Error: "` to the
message; that fixed text contains neither searched pattern, so checking
the message alone is equivalent. -/
def includesCI (s : String) (pat : List Char) : Bool :=
  containsChars pat (s.data.map Char.toLower)

/-- `isTransient` (`server.js` line 55): `[502, 503, 504, 408].includes(status)`. -/
def isTransient (status : Nat) : Bool :=
  (status == 502) || (status == 503) || (status == 504) || (status == 408)

/-- `shouldRetry(respStatus, err)` (`server.js` lines 58-64): transient
status, 429, or an error whose text mentions an abort or timeout. -/
def shouldRetry (respStatus : Option Nat) (err : Option String) : Bool :=
  (match respStatus with
   | some s => isTransient s
   | none => false) ||
  (respStatus == some 429) ||
  (match err with
   | some m => includesCI m ['a','b','o','r','t','e','d'] ||
               includesCI m ['t','i','m','e','o','u','t']
   | none => false)

/-- `Math.min(1000 * Math.pow(2, attempt), 8000)` — the backoff slept
before the next attempt. -/
def backoff (attempt : Nat) : Nat := min (1000 * 2 ^ attempt) 8000

/-- Error annotation `` `[${label}] ${msg}` ``. -/
def mkErr (label msg : String) : String := "[" ++ label ++ "] " ++ msg

/-- The `while (attempt <= MAX_RETRIES)` loop of `fetchRetry`
(`server.js` lines 66-97), with `fuel = MAX_RETRIES + 1 - attempt`
mirroring the loop guard exactly (fuel 0 ⟺ `attempt > MAX_RETRIES`).
`os n` is the outcome of the fetch performed on attempt `n`.  Returns the
result (`.ok` response or `.error` message) together with the list of
backoffs slept between consecutive attempts.  Note the terminal-status
`throw` on line 82 lands in the `catch` of line 83, so a terminal status
whose composed message mentions "aborted"/"timeout" is retried, and a
surfaced terminal-status error carries the label twice. -/
def fetchRetryGo (os : Nat → Outcome) (label : String) (maxRetries : Nat) :
    Nat → Nat → Option String → Except String UResp × List Nat
  | 0, _, lastErr => (.error (lastErr.getD (mkErr label "failed after retries")), [])
  | fuel + 1, attempt, lastErr =>
    match os attempt with
    | .resp status raw json =>
      if 200 ≤ status ∧ status < 300 then (.ok ⟨status, raw, json⟩, [])
      else if shouldRetry (some status) none then
        let p := fetchRetryGo os label maxRetries fuel (attempt + 1) lastErr
        (p.1, backoff attempt :: p.2)
      else if shouldRetry none (some (mkErr label (toString status ++ " " ++ raw))) ∧
              attempt < maxRetries then
        let p := fetchRetryGo os label maxRetries fuel (attempt + 1)
          (some (mkErr label (toString status ++ " " ++ raw)))
        (p.1, backoff attempt :: p.2)
      else (.error (mkErr label (mkErr label (toString status ++ " " ++ raw))), [])
    | .err msg =>
      if shouldRetry none (some msg) ∧ attempt < maxRetries then
        let p := fetchRetryGo os label maxRetries fuel (attempt + 1) (some msg)
        (p.1, backoff attempt :: p.2)
      else (.error (mkErr label msg), [])

/-- `fetchRetry(url, options, label)`: run the retry loop from attempt 0. -/
def fetchRetryM (os : Nat → Outcome) (label : String) (maxRetries : Nat) :
    Except String UResp × List Nat :=
  fetchRetryGo os label maxRetries (maxRetries + 1) 0 none

/-- An attempt outcome the client classifies as transient: a retryable
status (429/502/503/504/408) or a thrown error mentioning abort/timeout. -/
def transientOutcome : Outcome → Prop
  | .resp s _ _ => shouldRetry (some s) none = true
  | .err m => shouldRetry none (some m) = true

/-! ## Upstream prediction adapter (`createSinglePrediction`, lines 139-187) -/

/-- The `input` object built at `server.js` lines 140-145: the prompt,
aspect aliases when a non-empty aspect is requested, and — when a non-empty
reference-image URL is supplied — the bare URL replicated under four alias
fields.  Empty strings are falsy, so they add no fields. -/
def buildInput (prompt : String) (aspect : Option String) (imageUrl : Option String) : JVal :=
  .obj ([("prompt", .str prompt)] ++
    (match aspect with
     | some a => if a = "" then [] else [("aspect_ratio", .str a), ("aspect", .str a)]
     | none => []) ++
    (match imageUrl with
     | some u =>
       if u = "" then []
       else [("image", .str u), ("image_url", .str u),
             ("input_image", .str u), ("reference_image", .str u)]
     | none => []))

/-- Platform behaviour modelled abstractly: the message of the exception
`JSON.parse` throws on a non-empty unparseable body (its exact text is
engine-defined and irrelevant to every claim). -/
def jsonParseError (raw : String) : String := "Unexpected token in JSON: " ++ raw

/-- The three upstream call sites of `createSinglePrediction`, each a
sequence of per-attempt outcomes fed to `fetchRetry`, plus `MAX_RETRIES`. -/
structure AdapterEnv where
  maxRetries : Nat
  direct : Nat → Outcome
  info : Nat → Outcome
  versioned : Nat → Outcome

/-- What a `createSinglePrediction` call produced: its result (returned
document or thrown error), the `input` object it sent, and how many
metadata GETs and versioned POSTs it issued. -/
structure AdapterOut where
  result : Except String JVal
  sentInput : JVal
  infoCalls : Nat
  versionedCalls : Nat

/-- `createSinglePrediction` (`server.js` lines 139-187).  Path 1 POSTs to
the model-scoped endpoint through `fetchRetry`; any `fetchRetry` error
(including a terminal 404/405/400) propagates, line 162's
`try { return body.json ?? JSON.parse(body.raw || "{}") } catch {}`
falls through to the version flow only when a 2xx body fails to parse.
Path 2 GETs the model metadata (line 169 uses `||`, but a parsed-falsy body
re-parses to the same value, so only a parse failure diverges to a throw),
requires a truthy `latest_version.id`, then POSTs the versioned create. -/
def createSinglePrediction (env : AdapterEnv) (prompt : String)
    (aspect imageUrl : Option String) : AdapterOut :=
  let input := buildInput prompt aspect imageUrl
  match (fetchRetryM env.direct "official-predict" env.maxRetries).1 with
  | .error e => ⟨.error e, input, 0, 0⟩
  | .ok resp =>
    match parseOrEmpty resp with
    | some v => ⟨.ok v, input, 0, 0⟩
    | none =>
      match (fetchRetryM env.info "model-info" env.maxRetries).1 with
      | .error e => ⟨.error e, input, 1, 0⟩
      | .ok infoResp =>
        match parseOrEmpty infoResp with
        | none => ⟨.error (jsonParseError infoResp.raw), input, 1, 0⟩
        | some infoJson =>
          if truthy (getField (getField infoJson "latest_version") "id") then
            match (fetchRetryM env.versioned "predictions" env.maxRetries).1 with
            | .error e => ⟨.error e, input, 1, 1⟩
            | .ok resp2 =>
              match parseOrEmpty resp2 with
              | some v => ⟨.ok v, input, 1, 1⟩
              | none => ⟨.error (jsonParseError resp2.raw), input, 1, 1⟩
          else ⟨.error "[model-info] latest_version.id not found", input, 1, 0⟩

/-- Adapter environment in which the direct model-scoped POST always
answers HTTP 404 and both fallback endpoints would answer 200. -/
def envDirect404 : AdapterEnv :=
  ⟨4, fun _ => .resp 404 "Not Found" none,
     fun _ => .resp 200 "\x7b\x7d" (some (.obj [])),
     fun _ => .resp 200 "\x7b\x7d" (some (.obj []))⟩

/-- Outcome sequence in which the first attempt answers HTTP 400 with body
text "timeout" and the second answers 200: the terminal 400 is thrown as
`[label] 400 timeout`, caught, matched by the abort/timeout text check, and
retried. -/
def osBodyTimeout : Nat → Outcome := fun i =>
  if i = 0 then .resp 400 "timeout" none
  else .resp 200 "\x7b\x7d" (some (.obj []))

/-- Outcome sequence: one transient 503, then a successful 200. -/
def osTransientThenOk : Nat → Outcome := fun i =>
  if i = 0 then .resp 503 "busy" none
  else .resp 200 "\x7b\"status\":\"succeeded\"\x7d" (some (.obj [("status", .str "succeeded")]))

/-! ## Upload ingestor (`parseDataUrl` and `/api/upload`, lines 100-136) -/

/-- JavaScript line terminators, which `.` in a regex (without the `s`
flag) does not match and `$` (without `m`) does not precede. -/
def isLineTerminator (c : Char) : Bool :=
  c = '\n' || c = '\r' || c = Char.ofNat 0x2028 || c = Char.ofNat 0x2029

/-- Case-insensitive literal match at the head of a char list: the pattern
gives each position's lowercase/uppercase pair. -/
def startsWithCI : List (Char × Char) → List Char → Bool
  | [], _ => true
  | _ :: _, [] => false
  | (lo, up) :: ps, c :: cs => (c = lo || c = up : Bool) && startsWithCI ps cs

/-- The literal `;base64,` of the regex, matched case-insensitively
(the regex carries the `i` flag). -/
def markerPat : List (Char × Char) :=
  [(';', ';'), ('b', 'B'), ('a', 'A'), ('s', 'S'), ('e', 'E'),
   ('6', '6'), ('4', '4'), (',', ',')]

/-- Does `;base64,` (case-insensitive) start here? -/
def startsWithMarker (l : List Char) : Bool := startsWithCI markerPat l

/-- Does the string begin with `data:` (case-insensitive)? -/
def isDataUrlStart (l : List Char) : Bool :=
  startsWithCI [('d', 'D'), ('a', 'A'), ('t', 'T'), ('a', 'A'), (':', ':')] l

/-- Split at the LAST occurrence of `;base64,`: the greedy `(.+)` of
`/^data:(.+);base64,(.*)$/i` backtracks from the right, so the match point
is the rightmost occurrence of the marker. -/
def splitAtLastMarker : List Char → Option (List Char × List Char)
  | [] => none
  | c :: cs =>
    match splitAtLastMarker cs with
    | some (m, p) => some (c :: m, p)
    | none =>
      if startsWithMarker (c :: cs) then some ([], (c :: cs).drop 8) else none

/-- Does `;base64,` (case-insensitive) occur anywhere in the list? -/
def hasMarkerL : List Char → Bool
  | [] => false
  | c :: cs => startsWithMarker (c :: cs) || hasMarkerL cs

/-- Value of a base64-alphabet character, `none` for everything else
(Node's lenient decoder also accepts the URL-safe `-` and `_`). -/
def b64Val (c : Char) : Option Nat :=
  if 'A' ≤ c ∧ c ≤ 'Z' then some (c.toNat - 65)
  else if 'a' ≤ c ∧ c ≤ 'z' then some (c.toNat - 97 + 26)
  else if '0' ≤ c ∧ c ≤ '9' then some (c.toNat - 48 + 52)
  else if c = '+' || c = '-' then some 62
  else if c = '/' || c = '_' then some 63
  else none

/-- Decode 6-bit groups into bytes; a trailing group of 2 or 3 characters
yields 1 or 2 bytes, a lone leftover character yields none. -/
def b64Groups : List Nat → List Nat
  | v1 :: v2 :: v3 :: v4 :: rest =>
    (v1 * 4 + v2 / 16) :: ((v2 % 16) * 16 + v3 / 4) :: ((v3 % 4) * 64 + v4) ::
      b64Groups rest
  | [v1, v2] => [v1 * 4 + v2 / 16]
  | [v1, v2, v3] => [v1 * 4 + v2 / 16, (v2 % 16) * 16 + v3 / 4]
  | _ => []

/-- Modelled from the platform: `Buffer.from(s, "base64")` — Node's
lenient base64 decoder, which ignores characters outside the base64
alphabet (including padding and whitespace) and decodes what remains. -/
def b64decode (cs : List Char) : List Nat :=
  b64Groups (cs.filterMap b64Val)

/-- Extension table of `parseDataUrl` (lines 106-110); unknown media types
fall back to `.bin`. -/
def extFor (mime : String) : String :=
  if mime = "image/png" then ".png"
  else if mime = "image/jpeg" then ".jpg"
  else if mime = "image/webp" then ".webp"
  else if mime = "image/gif" then ".gif"
  else ".bin"

/-- Result of a successful `parseDataUrl`. -/
structure ParsedData where
  mime : String
  data : List Nat
  ext : String

/-- `parseDataUrl` (lines 100-112): match `/^data:(.+);base64,(.*)$/i`
— which requires the whole string free of line terminators, a
case-insensitive `data:` start, and at least one character before the
rightmost case-insensitive `;base64,` — then decode the payload with
Node's lenient base64 and pick the extension from the (case-sensitively
compared) media type. -/
def parseDataUrl (dataUrl : String) : Except String ParsedData :=
  if dataUrl.data.any isLineTerminator then .error "Invalid data URL"
  else if !isDataUrlStart dataUrl.data then .error "Invalid data URL"
  else
    match splitAtLastMarker (dataUrl.data.drop 5) with
    | none => .error "Invalid data URL"
    | some (m, p) =>
      if m = [] then .error "Invalid data URL"
      else .ok ⟨String.mk m, b64decode p, extFor (String.mk m)⟩

/-- What `/api/upload` produced: the HTTP status, the JSON body written
with `res.json`, and the bytes written to disk (`none` when no file was
written). -/
structure UploadResult where
  status : Nat
  body : JVal
  fileWritten : Option (List Nat)

/-- The `/api/upload` handler (lines 122-136): 400 for a falsy `dataUrl`
or a parse failure, otherwise the file is written and a JSON body holding
only `url` — `publicBaseUrl(req) + "/uploads/" + name + ext`, where `name`
is the random 16-hex-character file stem — is returned with status 200. -/
def uploadHandler (dataUrl : Option String) (name : String) (base : String) : UploadResult :=
  match dataUrl with
  | none => ⟨400, .obj [("error", .str "Missing 'dataUrl'.")], none⟩
  | some s =>
    if s = "" then ⟨400, .obj [("error", .str "Missing 'dataUrl'.")], none⟩
    else
      match parseDataUrl s with
      | .error e => ⟨400, .obj [("error", .str e)], none⟩
      | .ok pd => ⟨200, .obj [("url", .str (base ++ "/uploads/" ++ name ++ pd.ext))],
                   some pd.data⟩

/-! ## Status poller (`GET /api/predictions/:id`, lines 255-269) -/

/-- The poll handler: fetch the upstream status document through
`fetchRetry` (label "poll"); on success reply 200 with
`body.json ?? JSON.parse(body.raw || "{}")`; every throw — a `fetchRetry`
error or the re-parse throwing on a non-empty unparseable 2xx body — is
caught and answered 502 with `{ error }`. -/
def pollHandler (os : Nat → Outcome) (maxRetries : Nat) : Nat × JVal :=
  match (fetchRetryM os "poll" maxRetries).1 with
  | .error e => (502, .obj [("error", .str e)])
  | .ok r =>
    match parseOrEmpty r with
    | some v => (200, v)
    | none => (502, .obj [("error", .str (jsonParseError r.raw))])

/-- Outcome sequence in which the upstream always answers HTTP 404. -/
def osPoll404 : Nat → Outcome := fun _ => .resp 404 "not found" none

/-! ## Batch orchestrator (`POST /api/generate`, lines 195-252) -/

/-- ECMAScript whitespace and line terminators removed by
`String.prototype.trim`. -/
def isJsWhitespace (c : Char) : Bool :=
  c = ' ' || c = '\t' || c = '\n' || c = '\r' ||
  c = Char.ofNat 0x0B || c = Char.ofNat 0x0C || c = Char.ofNat 0xA0 ||
  c = Char.ofNat 0x1680 || (0x2000 ≤ c.toNat ∧ c.toNat ≤ 0x200A) ||
  c = Char.ofNat 0x2028 || c = Char.ofNat 0x2029 || c = Char.ofNat 0x202F ||
  c = Char.ofNat 0x205F || c = Char.ofNat 0x3000 || c = Char.ofNat 0xFEFF

/-- `prompt.trim()`. -/
def jsTrim (s : String) : String :=
  String.mk (((s.data.dropWhile isJsWhitespace).reverse.dropWhile isJsWhitespace).reverse)

/-- `!prompt || !prompt.trim()` for a string-or-absent prompt. -/
def badPrompt : Option String → Bool
  | none => true
  | some s => s = "" || jsTrim s = ""

/-- `Math.max(1, Math.min(4, Number(numImages) || 1))` (line 206), taking
the already-coerced `Number(numImages)` as input (`none` models `NaN`;
both `NaN` and `0` are falsy, so `|| 1` replaces them). -/
def effectiveCount (numVal : Option Rat) : Rat :=
  max 1 (min 4 (match numVal with
    | none => 1
    | some q => if q = 0 then 1 else q))

/-- `Array.from({ length: n })` builds an array of `ToLength(n)` slots:
truncation toward zero, clamped to zero below (for the clamped `n ∈ [1,4]`
this is the floor). -/
def jobCount (n : Rat) : Nat := n.floor.toNat

/-- One element of the batch response's `items` (lines 228-240). -/
def mkItem (r : JVal) : JVal :=
  .obj [("id", orNull (getField r "id")),
        ("getUrl", orNull (getField (getField r "urls") "get")),
        ("webUrl", orNull (getField (getField r "urls") "web")),
        ("status", orNull (getField r "status")),
        ("output", outputsOrNull (normalizeOutput (getField r "output")))]

/-- The request-body fields read by `/api/generate`: `prompt` (absent or a
string) and the numeric coercion of `numImages` (`none` models `NaN`). -/
structure GenBody where
  prompt : Option String
  numImages : Option Rat
  aspect : Option String
  imageUrl : Option String

/-- What `/api/generate` produced: HTTP status, JSON body, and the number
of `createSinglePrediction` calls dispatched. -/
structure GenResult where
  status : Nat
  body : JVal
  adapterCalls : Nat

/-- The `/api/generate` handler (lines 195-252) on the success path:
validation (400 for a missing/blank prompt before anything else, 500 for a
missing token), clamping of the replica count, then either the `single`
shape built from one adapter result or the `batch` shape built from `n`
adapter results in submission order (`Promise.all` preserves order), with
`count = items.length` and the elapsed `tookMs`.  `results i` is the
document the i-th dispatched adapter call resolved with. -/
def generateHandler (g : GenBody) (hasToken : Bool) (results : Nat → JVal)
    (tookMs : Rat) : GenResult :=
  if badPrompt g.prompt then
    ⟨400, .obj [("error", .str "Missing 'prompt'.")], 0⟩
  else if !hasToken then
    ⟨500, .obj [("error", .str "Missing REPLICATE_API_TOKEN on server.")], 0⟩
  else
    let n := effectiveCount g.numImages
    if n = 1 then
      let data := results 0
      ⟨200, .obj [("mode", .str "single"),
                  ("id", orNull (getField data "id")),
                  ("getUrl", orNull (getField (getField data "urls") "get")),
                  ("webUrl", orNull (getField (getField data "urls") "web")),
                  ("status", orNull (getField data "status")),
                  ("output", outputsOrNull (normalizeOutput (getField data "output")))], 1⟩
    else
      let k := jobCount n
      let items := (List.range k).map (fun i => mkItem (results i))
      ⟨200, .obj [("mode", .str "batch"),
                  ("count", .num (items.length : Rat)),
                  ("items", .arr items),
                  ("tookMs", .num tookMs)], k⟩

/-- Outcome sequence in which the upstream instantly answers 200 with a
parseable JSON document. -/
def osPollOk : Nat → Outcome := fun _ =>
  .resp 200 "\x7b\"id\":\"abc\"\x7d" (some (.obj [("id", .str "abc")]))

/-! ## Claim theorems -/

/-- C4: the orchestrator's output normalisation checks flat `output` first,
then `output.images`, then `output.data`, returns the first matching array,
`null` when none match, and yields the same flat list whichever of the three
shapes carries the data. -/
theorem c4_output_normalization (xs : List JVal) (v : JVal) :
    normalizeOutput (.arr xs) = some xs ∧
    (asArray v = none → getField v "images" = .arr xs → normalizeOutput v = some xs) ∧
    (asArray v = none → asArray (getField v "images") = none →
      getField v "data" = .arr xs → normalizeOutput v = some xs) ∧
    (asArray v = none → asArray (getField v "images") = none →
      asArray (getField v "data") = none → normalizeOutput v = none) ∧
    normalizeOutput (.obj [("images", .arr xs)]) = some xs ∧
    normalizeOutput (.obj [("data", .arr xs)]) = some xs := by
  refine ⟨rfl, ?_, ?_, ?_, rfl, rfl⟩
  · intro hv himg
    unfold normalizeOutput
    rw [hv, himg]
    rfl
  · intro hv himg hdata
    unfold normalizeOutput
    rw [hv, himg, hdata]
    rfl
  · intro hv himg hdata
    unfold normalizeOutput
    rw [hv, himg, hdata]

/-- Witness for C4 at concrete inputs: a list nested under `images` behind
another key, and an object matching none of the three shapes. -/
theorem c4_output_normalization_witness :
    normalizeOutput (.obj [("x", .nul), ("images", .arr [.str "u"])]) = some [.str "u"] ∧
    normalizeOutput (.obj [("status", .str "ok")]) = none := by
  have h1 := c4_output_normalization [JVal.str "u"]
    (.obj [("x", .nul), ("images", .arr [.str "u"])])
  have h2 := c4_output_normalization [] (.obj [("status", .str "ok")])
  exact ⟨h1.2.1 rfl rfl, h2.2.2.2.1 rfl rfl rfl⟩

/-- Helper: a status classified retryable by `shouldRetry` is one of
429/502/503/504/408. -/
theorem shouldRetry_status_cases (s : Nat) (h : shouldRetry (some s) none = true) :
    s = 502 ∨ s = 503 ∨ s = 504 ∨ s = 408 ∨ s = 429 := by
  simp only [shouldRetry, isTransient, Bool.or_eq_true, beq_iff_eq,
    Option.some.injEq] at h
  tauto

/-- Helper: a run of `k` transient outcomes followed by a 200 within the
retry budget returns the 200 response, sleeping `backoff` between each pair
of consecutive attempts. -/
theorem fetchRetryGo_transient_run (os : Nat → Outcome) (label : String) (maxRetries : Nat)
    (k : Nat) :
    ∀ (a : Nat) (lastErr : Option String), a + k ≤ maxRetries →
      (∀ i, i < k → transientOutcome (os (a + i))) →
      ∀ (raw : String) (json : Option JVal), os (a + k) = .resp 200 raw json →
      fetchRetryGo os label maxRetries (maxRetries + 1 - a) a lastErr =
        (.ok ⟨200, raw, json⟩, (List.range k).map fun i => backoff (a + i)) := by
  induction k with
  | zero =>
    intro a lastErr ha _ raw json hok
    have hfuel : maxRetries + 1 - a = (maxRetries - a) + 1 := by omega
    rw [Nat.add_zero] at hok
    rw [hfuel]
    simp only [fetchRetryGo, hok]
    norm_num
  | succ k ih =>
    intro a lastErr ha ht raw json hok
    have hfuel : maxRetries + 1 - a = (maxRetries - a) + 1 := by omega
    have hfuel2 : maxRetries - a = maxRetries + 1 - (a + 1) := by omega
    have ht0 := ht 0 (Nat.succ_pos k)
    rw [Nat.add_zero] at ht0
    have hok' : os (a + 1 + k) = .resp 200 raw json := by
      rw [show a + 1 + k = a + (k + 1) by omega]; exact hok
    have ht' : ∀ i, i < k → transientOutcome (os (a + 1 + i)) := by
      intro i hi
      have := ht (i + 1) (by omega)
      rwa [show a + (i + 1) = a + 1 + i by omega] at this
    have hrec := ih (a + 1) lastErr (by omega) ht' raw json hok'
    have hlist : backoff a :: ((List.range k).map fun i => backoff (a + 1 + i)) =
        (List.range (k + 1)).map fun i => backoff (a + i) := by
      rw [List.range_succ_eq_map, List.map_cons, List.map_map]
      refine congrArg₂ _ (by rw [Nat.add_zero]) ?_
      refine List.map_congr_left ?_
      intro x _
      simp only [Function.comp]
      rw [show a + (x + 1) = a + 1 + x by omega]
    cases hosa : os a with
    | resp s raw0 json0 =>
      rw [hosa] at ht0
      have hs : shouldRetry (some s) none = true := ht0
      have hnotok : ¬(200 ≤ s ∧ s < 300) := by
        rcases shouldRetry_status_cases s hs with h | h | h | h | h <;> omega
      rw [hfuel]
      simp only [fetchRetryGo, hosa]
      rw [if_neg hnotok, if_pos hs]
      rw [hfuel2]
      simp only [hrec]
      rw [← hlist]
    | err m =>
      rw [hosa] at ht0
      have hm : shouldRetry none (some m) = true := ht0
      rw [hfuel]
      simp only [fetchRetryGo, hosa]
      rw [if_pos (show shouldRetry none (some m) = true ∧ a < maxRetries from ⟨hm, by omega⟩)]
      rw [hfuel2]
      have hrec2 := ih (a + 1) (some m) (by omega) ht' raw json hok'
      simp only [hrec2]
      rw [← hlist]

/-- C2 (amended): a run of N-1 transient outcomes (429/502/503/504/408 or
an abort/timeout error) followed by a 200, N ≤ maxRetries+1, returns the
200 response having slept `backoff attempt = min(1000·2^attempt, 8000)`
between consecutive attempts; a first-attempt response with any other
non-2xx status is surfaced immediately without retry — unless the composed
error text `[label] status body` mentions "aborted"/"timeout"
(case-insensitively) and budget remains, in which case the error is
caught by the retry loop's catch block and retried like a transient
failure. -/
theorem c2_fetchRetry_amended :
    (∀ (os : Nat → Outcome) (label : String) (maxRetries N : Nat)
       (raw : String) (json : Option JVal),
       1 ≤ N → N ≤ maxRetries + 1 →
       (∀ i, i < N - 1 → transientOutcome (os i)) →
       os (N - 1) = .resp 200 raw json →
       fetchRetryM os label maxRetries =
         (.ok ⟨200, raw, json⟩, (List.range (N - 1)).map backoff)) ∧
    (∀ (os : Nat → Outcome) (label : String) (maxRetries s : Nat)
       (raw : String) (json : Option JVal),
       os 0 = .resp s raw json → ¬(200 ≤ s ∧ s < 300) →
       shouldRetry (some s) none = false →
       shouldRetry none (some (mkErr label (toString s ++ " " ++ raw))) = false →
       fetchRetryM os label maxRetries =
         (.error (mkErr label (mkErr label (toString s ++ " " ++ raw))), [])) ∧
    (∀ (os : Nat → Outcome) (label : String) (maxRetries s : Nat)
       (raw : String) (json : Option JVal),
       os 0 = .resp s raw json → ¬(200 ≤ s ∧ s < 300) →
       shouldRetry (some s) none = false →
       shouldRetry none (some (mkErr label (toString s ++ " " ++ raw))) = true →
       0 < maxRetries →
       fetchRetryM os label maxRetries =
         ((fetchRetryGo os label maxRetries maxRetries 1
             (some (mkErr label (toString s ++ " " ++ raw)))).1,
          backoff 0 :: (fetchRetryGo os label maxRetries maxRetries 1
             (some (mkErr label (toString s ++ " " ++ raw)))).2)) := by
  refine ⟨?_, ?_, ?_⟩
  · intro os label maxRetries N raw json h1 h2 ht hok
    have hrun := fetchRetryGo_transient_run os label maxRetries (N - 1) 0 none (by omega)
      (by intro i hi; simpa using ht i hi) raw json (by simpa using hok)
    rw [Nat.sub_zero] at hrun
    unfold fetchRetryM
    rw [hrun]
    simp [Nat.zero_add]
  · intro os label maxRetries s raw json h0 hnotok hs hm
    unfold fetchRetryM
    simp only [fetchRetryGo, h0]
    rw [if_neg hnotok, if_neg (by simp [hs]), if_neg (by simp [hm])]
  · intro os label maxRetries s raw json h0 hnotok hs hm hmr
    unfold fetchRetryM
    simp only [fetchRetryGo, h0]
    rw [if_neg hnotok, if_neg (by simp [hs]),
        if_pos (show shouldRetry none (some (mkErr label (toString s ++ " " ++ raw))) = true ∧
          0 < maxRetries from ⟨hm, hmr⟩)]

/-- C2 counterexample: a 400 response — a status outside the transient
list, which the claim says is surfaced immediately without retry — whose
body text is "timeout" is retried (one 1000 ms backoff is slept) and the
run succeeds on the next attempt. -/
theorem c2_counterexample :
    fetchRetryM osBodyTimeout "official-predict" 4 =
      (.ok ⟨200, "\x7b\x7d", some (.obj [])⟩, [1000]) := by rfl

/-- Witness for C2 at a concrete run: a 503 then a 200, with one 1000 ms
backoff slept in between. -/
theorem c2_fetchRetry_amended_witness :
    fetchRetryM osTransientThenOk "poll" 4 =
      (.ok ⟨200, "\x7b\"status\":\"succeeded\"\x7d", some (.obj [("status", .str "succeeded")])⟩,
       [1000]) := by
  have h := c2_fetchRetry_amended.1 osTransientThenOk "poll" 4 2
    "\x7b\"status\":\"succeeded\"\x7d" (some (.obj [("status", .str "succeeded")]))
    (by decide) (by decide)
    (by intro i hi; interval_cases i; exact rfl) (by rfl)
  exact h.trans rfl

/-- C1 (code bug): when the direct model-scoped POST answers HTTP 404,
`createSinglePrediction` surfaces a terminal error — performing zero
metadata GETs and zero versioned POSTs — instead of falling through to the
versioned fallback path: `fetchRetry` throws on terminal statuses before
the version-flow block (which the retained "fallback: version flow"
comment, the README and both historical revisions reserve for exactly the
404/405/400 case) can run. -/
theorem c1_direct404_no_fallback :
    (createSinglePrediction envDirect404 "sunset" none none).result =
      .error "[official-predict] [official-predict] 404 Not Found" ∧
    (createSinglePrediction envDirect404 "sunset" none none).infoCalls = 0 ∧
    (createSinglePrediction envDirect404 "sunset" none none).versionedCalls = 0 :=
  ⟨rfl, rfl, rfl⟩

/-- C8 counterexample: with a reference image supplied and no aspect
requested, the built input carries the image under `reference_image` as a
bare string — not a single-element list — and carries no aspect field at
all, so no "match input image" sentinel default exists. -/
theorem c8_counterexample :
    asArray (getField (buildInput "p" none (some "https://h/i.png")) "reference_image") = none ∧
    getField (buildInput "p" none (some "https://h/i.png")) "reference_image" =
      .str "https://h/i.png" ∧
    getField (buildInput "p" none (some "https://h/i.png")) "aspect_ratio" = .undefined ∧
    getField (buildInput "p" none (some "https://h/i.png")) "aspect" = .undefined :=
  ⟨rfl, rfl, rfl, rfl⟩

/-- C8 (amended): a non-empty reference image URL is carried as a bare
string replicated under the four alias fields `image`, `image_url`,
`input_image`, `reference_image`; when no aspect ratio is requested the
input carries no aspect field (no sentinel default), and a requested
non-empty aspect is carried under `aspect_ratio` (and `aspect`). -/
theorem c8_reference_image_amended (prompt u : String) (hu : u ≠ "") :
    buildInput prompt none (some u) =
      .obj [("prompt", .str prompt), ("image", .str u), ("image_url", .str u),
            ("input_image", .str u), ("reference_image", .str u)] ∧
    getField (buildInput prompt none (some u)) "reference_image" = .str u ∧
    getField (buildInput prompt none (some u)) "aspect_ratio" = .undefined ∧
    getField (buildInput prompt none (some u)) "aspect" = .undefined ∧
    (∀ a, a ≠ "" → getField (buildInput prompt (some a) (some u)) "aspect_ratio" = .str a) := by
  have hb : buildInput prompt none (some u) =
      .obj [("prompt", .str prompt), ("image", .str u), ("image_url", .str u),
            ("input_image", .str u), ("reference_image", .str u)] := by
    simp [buildInput, hu]
  refine ⟨hb, by rw [hb]; rfl, by rw [hb]; rfl, by rw [hb]; rfl, ?_⟩
  intro a ha
  have hb2 : buildInput prompt (some a) (some u) =
      .obj [("prompt", .str prompt), ("aspect_ratio", .str a), ("aspect", .str a),
            ("image", .str u), ("image_url", .str u),
            ("input_image", .str u), ("reference_image", .str u)] := by
    simp [buildInput, hu, ha]
  rw [hb2]; rfl

/-- Witness for C8 at a concrete URL and aspect. -/
theorem c8_reference_image_amended_witness :
    buildInput "p" none (some "https://h/img.png") =
      .obj [("prompt", .str "p"), ("image", .str "https://h/img.png"),
            ("image_url", .str "https://h/img.png"),
            ("input_image", .str "https://h/img.png"),
            ("reference_image", .str "https://h/img.png")] ∧
    getField (buildInput "p" (some "16:9") (some "https://h/img.png")) "aspect_ratio" =
      .str "16:9" := by
  have h := c8_reference_image_amended "p" "https://h/img.png" (by decide)
  exact ⟨h.1, h.2.2.2.2 "16:9" (by decide)⟩
/-- Helper: a list starting with the (case-insensitive) `;base64,` marker
starts with a semicolon. -/
theorem startsWithMarker_head {c : Char} {cs : List Char}
    (h : startsWithMarker (c :: cs) = true) : c = ';' := by
  simp only [startsWithMarker, markerPat, startsWithCI, Bool.and_eq_true,
    Bool.or_eq_true, decide_eq_true_eq] at h
  rcases h.1 with h' | h' <;> exact h'

/-- Helper: a semicolon-free list contains no `;base64,` marker. -/
theorem splitAtLastMarker_none {l : List Char} (h : ∀ c ∈ l, c ≠ ';') :
    splitAtLastMarker l = none := by
  induction l with
  | nil => rfl
  | cons c cs ih =>
    have hc : c ≠ ';' := h c (List.mem_cons_self c cs)
    have htail : splitAtLastMarker cs = none :=
      ih (fun x hx => h x (List.mem_cons_of_mem c hx))
    simp only [splitAtLastMarker, htail]
    rw [if_neg (fun hsm => hc (startsWithMarker_head hsm))]

/-- Helper: one unfolding step of `splitAtLastMarker`. -/
theorem splitAtLastMarker_cons (c : Char) (cs : List Char) :
    splitAtLastMarker (c :: cs) =
      match splitAtLastMarker cs with
      | some (m, p) => some (c :: m, p)
      | none =>
        if startsWithMarker (c :: cs) then some ([], (c :: cs).drop 8) else none := rfl

/-- Helper: a marker followed by a semicolon-free payload splits at the
marker with an empty media part. -/
theorem splitAtLastMarker_marker {p : List Char} (hp : ∀ c ∈ p, c ≠ ';') :
    splitAtLastMarker ([';', 'b', 'a', 's', 'e', '6', '4', ','] ++ p) = some ([], p) := by
  have htail : splitAtLastMarker (['b', 'a', 's', 'e', '6', '4', ','] ++ p) = none := by
    apply splitAtLastMarker_none
    intro c hc
    rcases List.mem_append.mp hc with h | h
    · simp only [List.mem_cons, List.not_mem_nil, or_false] at h
      rcases h with h | h | h | h | h | h | h <;> (subst h; decide)
    · exact hp c h
  simp only [List.cons_append, List.nil_append] at htail ⊢
  rw [splitAtLastMarker_cons, htail]
  simp [startsWithMarker, startsWithCI, markerPat]

/-- Helper: with semicolon-free media and payload, the greedy split lands
exactly at the single `;base64,` marker. -/
theorem splitAtLastMarker_wellformed {m p : List Char}
    (hm : ∀ c ∈ m, c ≠ ';') (hp : ∀ c ∈ p, c ≠ ';') :
    splitAtLastMarker (m ++ [';', 'b', 'a', 's', 'e', '6', '4', ','] ++ p) = some (m, p) := by
  induction m with
  | nil => simpa using splitAtLastMarker_marker hp
  | cons c m' ih =>
    have ih' := ih (fun x hx => hm x (List.mem_cons_of_mem c hx))
    simp only [List.cons_append]
    simp only [List.cons_append] at ih'
    rw [splitAtLastMarker_cons, ih']

/-- Helper: a successful split implies the marker occurs. -/
theorem splitAtLastMarker_hasMarker {l : List Char} {x : List Char × List Char}
    (h : splitAtLastMarker l = some x) : hasMarkerL l = true := by
  induction l generalizing x with
  | nil => exact absurd h (by simp [splitAtLastMarker])
  | cons c cs ih =>
    rw [splitAtLastMarker_cons] at h
    rw [show hasMarkerL (c :: cs) = (startsWithMarker (c :: cs) || hasMarkerL cs) from rfl]
    cases hsp : splitAtLastMarker cs with
    | some y => rw [ih hsp, Bool.or_true]
    | none =>
      rw [hsp] at h
      by_cases hsw : startsWithMarker (c :: cs) = true
      · rw [hsw, Bool.true_or]
      · rw [if_neg hsw] at h
        exact absurd h (by simp)

/-- Helper: a marker occurring in a suffix occurs in the whole list. -/
theorem hasMarker_of_drop {n : Nat} {l : List Char}
    (h : hasMarkerL (l.drop n) = true) : hasMarkerL l = true := by
  induction l generalizing n with
  | nil => simpa using h
  | cons c cs ih =>
    cases n with
    | zero => simpa using h
    | succ n =>
      rw [List.drop_succ_cons] at h
      rw [show hasMarkerL (c :: cs) = (startsWithMarker (c :: cs) || hasMarkerL cs) from rfl]
      rw [ih h, Bool.or_true]

/-- Helper: rebuilding a string from its characters is the identity. -/
theorem strMkData (s : String) : String.mk s.data = s := rfl

/-- Helper: `parseDataUrl` on a well-formed
`data:<media>;base64,<payload>` — media non-empty, media and payload free
of semicolons and line terminators — returns the media type, the lenient
base64 decode of the payload, and the media type's extension. -/
theorem parseDataUrl_wellformed (media payload : String)
    (hm0 : media.data ≠ [])
    (hm : ∀ c ∈ media.data, c ≠ ';' ∧ isLineTerminator c = false)
    (hp : ∀ c ∈ payload.data, c ≠ ';' ∧ isLineTerminator c = false) :
    parseDataUrl ("data:" ++ media ++ ";base64," ++ payload) =
      .ok ⟨media, b64decode payload.data, extFor media⟩ := by
  have hdata : ("data:" ++ media ++ ";base64," ++ payload).data =
      'd' :: 'a' :: 't' :: 'a' :: ':' ::
        (media.data ++ [';', 'b', 'a', 's', 'e', '6', '4', ','] ++ payload.data) := by
    simp [String.data_append, List.append_assoc]
  have hanyM : media.data.any isLineTerminator = false := by
    rw [List.any_eq_false]
    intro x hx
    simp [(hm x hx).2]
  have hanyP : payload.data.any isLineTerminator = false := by
    rw [List.any_eq_false]
    intro x hx
    simp [(hp x hx).2]
  have hsplit := splitAtLastMarker_wellformed (fun c hc => (hm c hc).1) (fun c hc => (hp c hc).1)
  unfold parseDataUrl
  rw [hdata]
  rw [if_neg (by simp [List.any_append, hanyM, hanyP, isLineTerminator])]
  rw [if_neg (by simp [isDataUrlStart, startsWithCI])]
  rw [show List.drop 5
      ('d' :: 'a' :: 't' :: 'a' :: ':' ::
        (media.data ++ [';', 'b', 'a', 's', 'e', '6', '4', ','] ++ payload.data)) =
      media.data ++ [';', 'b', 'a', 's', 'e', '6', '4', ','] ++ payload.data from rfl]
  rw [hsplit]
  simp [hm0, strMkData]

/-- Helper: base64-alphabet characters are neither semicolons nor line
terminators. -/
theorem b64Val_safe {c : Char} (h : (b64Val c).isSome = true) :
    c ≠ ';' ∧ isLineTerminator c = false := by
  constructor
  · intro he
    subst he
    exact absurd h (by decide)
  · by_contra hlt
    rw [Bool.not_eq_false] at hlt
    simp only [isLineTerminator, Bool.or_eq_true, decide_eq_true_eq] at hlt
    rcases hlt with ((h' | h') | h') | h' <;> (subst h'; exact absurd h (by decide))

/-- Helper: without a `;base64,` marker anywhere, `parseDataUrl` fails. -/
theorem parseDataUrl_noMarker {s : String} (h : hasMarkerL s.data = false) :
    parseDataUrl s = .error "Invalid data URL" := by
  have hdrop : splitAtLastMarker (s.data.drop 5) = none := by
    cases hsp : splitAtLastMarker (s.data.drop 5) with
    | none => rfl
    | some x =>
      have hmk := hasMarker_of_drop (splitAtLastMarker_hasMarker hsp)
      rw [hmk] at h
      exact absurd h (by simp)
  unfold parseDataUrl
  by_cases h1 : s.data.any isLineTerminator = true
  · rw [if_pos h1]
  · rw [if_neg h1]
    by_cases h2 : (!isDataUrlStart s.data) = true
    · rw [if_pos h2]
    · rw [if_neg h2, hdrop]

/-- Helper: dropping the non-alphabet characters first does not change the
lenient base64 decode — they are ignored either way. -/
theorem b64decode_filter (l : List Char) :
    b64decode l = b64decode (l.filter (fun c => (b64Val c).isSome)) := by
  unfold b64decode
  congr 1
  induction l with
  | nil => rfl
  | cons c cs ih =>
    cases hv : b64Val c with
    | none => simp [List.filterMap_cons, List.filter_cons, hv, ih]
    | some v => simp [List.filterMap_cons, List.filter_cons, hv, ih]

/-- Helper: a non-empty string has a non-empty character list. -/
theorem data_ne_empty (media : String) (hmne : media ≠ "") : media.data ≠ [] := by
  intro hd
  apply hmne
  cases media with
  | mk l => cases hd; rfl

/-- Helper: `/api/upload` on a well-formed data URL writes the decoded
bytes and answers 200 with a body holding only `url`. -/
theorem uploadHandler_wellformed (media payload name base : String)
    (hmne : media ≠ "")
    (hm : ∀ c ∈ media.data, c ≠ ';' ∧ isLineTerminator c = false)
    (hp : ∀ c ∈ payload.data, c ≠ ';' ∧ isLineTerminator c = false) :
    uploadHandler (some ("data:" ++ media ++ ";base64," ++ payload)) name base =
      ⟨200, .obj [("url", .str (base ++ "/uploads/" ++ name ++ extFor media))],
       some (b64decode payload.data)⟩ := by
  have hne : ("data:" ++ media ++ ";base64," ++ payload) ≠ "" := by
    intro h
    have hd := congrArg String.data h
    simp [String.data_append] at hd
  have hparse := parseDataUrl_wellformed media payload (data_ne_empty media hmne) hm hp
  simp only [uploadHandler]
  rw [if_neg hne, hparse]

/-- C3 counterexample: on a valid `data:image/png;base64,AAAA` upload the
handler answers 200, but the JSON body holds only `url` — it carries no
`mime` and no `size` member, contrary to the claimed
`{ url, mime, size }` response shape. -/
theorem c3_counterexample :
    (uploadHandler (some "data:image/png;base64,AAAA") "aabbccddeeff0011" "https://h").status
      = 200 ∧
    getField (uploadHandler (some "data:image/png;base64,AAAA") "aabbccddeeff0011"
      "https://h").body "mime" = .undefined ∧
    getField (uploadHandler (some "data:image/png;base64,AAAA") "aabbccddeeff0011"
      "https://h").body "size" = .undefined ∧
    (uploadHandler (some "data:image/png;base64,AAAA") "aabbccddeeff0011"
      "https://h").body = .obj [("url", .str "https://h/uploads/aabbccddeeff0011.png")] :=
  ⟨rfl, rfl, rfl, rfl⟩

/-- C3 (amended): for every well-formed
`data:image/png;base64,<payload>` (payload over the base64 alphabet with
padding), `/api/upload` answers 200 with a JSON body containing only
`url`, whose value ends in `.png`, and writes the decoded payload; the
body carries no `mime` or `size` fields.  Every input missing the
`;base64,` marker is answered 400. -/
theorem c3_upload_amended :
    (∀ (payload name base : String),
       (∀ c ∈ payload.data, (b64Val c).isSome = true ∨ c = '=') →
       uploadHandler (some ("data:image/png;base64," ++ payload)) name base =
         ⟨200, .obj [("url", .str (base ++ "/uploads/" ++ name ++ ".png"))],
          some (b64decode payload.data)⟩) ∧
    (∀ (s name base : String), hasMarkerL s.data = false →
       (uploadHandler (some s) name base).status = 400) := by
  constructor
  · intro payload name base hchars
    have hlit : ("data:image/png;base64," ++ payload) =
        ("data:" ++ "image/png" ++ ";base64," ++ payload) := rfl
    rw [hlit]
    have hup := uploadHandler_wellformed "image/png" payload name base (by decide)
      (by decide)
      (by intro c hc
          rcases hchars c hc with h | h
          · exact b64Val_safe h
          · subst h; exact ⟨by decide, by decide⟩)
    exact hup.trans (by rfl)
  · intro s name base hno
    by_cases hse : s = ""
    · subst hse; rfl
    · simp only [uploadHandler]
      rw [if_neg hse, parseDataUrl_noMarker hno]

/-- Witness for C3 at a concrete PNG payload and a marker-free input. -/
theorem c3_upload_amended_witness :
    uploadHandler (some ("data:image/png;base64," ++ "iVBORw0KGgo=")) "aabbccddeeff0011"
        "https://h" =
      ⟨200, .obj [("url", .str "https://h/uploads/aabbccddeeff0011.png")],
       some (b64decode "iVBORw0KGgo=".data)⟩ ∧
    (uploadHandler (some "nodataurl") "aabbccddeeff0011" "https://h").status = 400 := by
  have h := c3_upload_amended
  refine ⟨?_, h.2 "nodataurl" "aabbccddeeff0011" "https://h" (by decide)⟩
  have h1 := h.1 "iVBORw0KGgo=" "aabbccddeeff0011" "https://h" (by decide)
  exact h1.trans (by rfl)

/-- C10 counterexample: a payload consisting of a newline — a character
that is not valid base64 — is rejected with 400, not accepted with 200:
`.` and `$` in the parsing regex do not span line terminators. -/
theorem c10_counterexample :
    (uploadHandler (some ("data:image/png;base64," ++ "\n")) "aabbccddeeff0011"
      "https://h").status = 400 :=
  rfl

/-- C10 (amended): for every `data:<media>;base64,<payload>` whose media
is non-empty and whose media and payload contain no semicolons and no
line terminators, `/api/upload` answers 200 with a URL, never validates
the payload: an empty payload writes a zero-byte file, and characters
outside the base64 alphabet are silently dropped by the decoder. -/
theorem c10_upload_lenient_amended (media payload name base : String)
    (hmne : media ≠ "")
    (hm : ∀ c ∈ media.data, c ≠ ';' ∧ isLineTerminator c = false)
    (hp : ∀ c ∈ payload.data, c ≠ ';' ∧ isLineTerminator c = false) :
    (uploadHandler (some ("data:" ++ media ++ ";base64," ++ payload)) name base).status
      = 200 ∧
    (uploadHandler (some ("data:" ++ media ++ ";base64," ++ payload)) name base).fileWritten
      = some (b64decode payload.data) ∧
    (payload = "" →
      (uploadHandler (some ("data:" ++ media ++ ";base64," ++ payload)) name base).fileWritten
        = some []) ∧
    b64decode payload.data = b64decode (payload.data.filter (fun c => (b64Val c).isSome)) := by
  have hup := uploadHandler_wellformed media payload name base hmne hm hp
  refine ⟨by rw [hup], by rw [hup], ?_, b64decode_filter payload.data⟩
  intro hpe
  subst hpe
  rw [hup]
  rfl

/-- Witness for C10: the invalid `@` in `A@B` is dropped (one decoded
byte), and the empty payload writes zero bytes. -/
theorem c10_upload_lenient_amended_witness :
    (uploadHandler (some ("data:" ++ "image/gif" ++ ";base64," ++ "A@B")) "aabbccddeeff0011"
      "https://h").status = 200 ∧
    (uploadHandler (some ("data:" ++ "image/gif" ++ ";base64," ++ "A@B")) "aabbccddeeff0011"
      "https://h").fileWritten = some [0] ∧
    (uploadHandler (some ("data:" ++ "image/gif" ++ ";base64," ++ "")) "aabbccddeeff0011"
      "https://h").fileWritten = some [] := by
  have h1 := c10_upload_lenient_amended "image/gif" "A@B" "aabbccddeeff0011" "https://h"
    (by decide) (by decide) (by decide)
  have h2 := c10_upload_lenient_amended "image/gif" "" "aabbccddeeff0011" "https://h"
    (by decide) (by decide) (by decide)
  exact ⟨h1.1, h1.2.1.trans (by rfl), h2.2.2.1 rfl⟩

/-- C9 counterexample: an upstream HTTP 404 — a completed response, not a
transport failure — is answered 502 with an error body instead of being
relayed verbatim with its status preserved. -/
theorem c9_counterexample :
    pollHandler osPoll404 4 =
      (502, .obj [("error", .str "[poll] [poll] 404 not found")]) := rfl

/-- C9 (amended): `GET /api/predictions/:id` relays the parsed upstream
JSON with status fixed to 200 for any 2xx upstream response whose body
parses (an empty body relays as `{}`), and answers 502 with an `error`
body on every `fetchRetry` error — transport failure, retry exhaustion,
or terminal upstream status — and on a 2xx response whose non-empty body
is not valid JSON. -/
theorem c9_poll_amended (os : Nat → Outcome) (maxRetries : Nat) :
    (∀ e, (fetchRetryM os "poll" maxRetries).1 = .error e →
       pollHandler os maxRetries = (502, .obj [("error", .str e)])) ∧
    (∀ r v, (fetchRetryM os "poll" maxRetries).1 = .ok r → r.json = some v →
       pollHandler os maxRetries = (200, v)) ∧
    (∀ r, (fetchRetryM os "poll" maxRetries).1 = .ok r → r.json = none → r.raw = "" →
       pollHandler os maxRetries = (200, .obj [])) ∧
    (∀ r, (fetchRetryM os "poll" maxRetries).1 = .ok r → r.json = none → r.raw ≠ "" →
       pollHandler os maxRetries = (502, .obj [("error", .str (jsonParseError r.raw))])) := by
  refine ⟨?_, ?_, ?_, ?_⟩
  · intro e he
    simp only [pollHandler, he]
  · intro r v hr hv
    simp only [pollHandler, hr, parseOrEmpty, hv]
  · intro r hr hv hraw
    simp only [pollHandler, hr, parseOrEmpty, hv]
    rw [if_pos hraw]
  · intro r hr hv hraw
    simp only [pollHandler, hr, parseOrEmpty, hv]
    rw [if_neg hraw]

/-- Witness for C9 at a concrete successful poll. -/
theorem c9_poll_amended_witness :
    pollHandler osPollOk 4 = (200, .obj [("id", .str "abc")]) :=
  (c9_poll_amended osPollOk 4).2.1
    ⟨200, "\x7b\"id\":\"abc\"\x7d", some (.obj [("id", .str "abc")])⟩
    (.obj [("id", .str "abc")]) (by rfl) rfl

/-- C6: the effective replica count `Math.max(1, Math.min(4,
Number(numImages) || 1))` clamps into [1,4] toward the nearest bound:
0 ↦ 1 (via `|| 1`), 5 ↦ 4, non-numeric (NaN) ↦ 1, below-range values
rise to 1, above-range values drop to 4, in-range values are kept. -/
theorem c6_clamp (q : Rat) :
    effectiveCount (some 0) = 1 ∧ effectiveCount (some 5) = 4 ∧ effectiveCount none = 1 ∧
    (q < 1 → effectiveCount (some q) = 1) ∧
    (4 < q → effectiveCount (some q) = 4) ∧
    (1 ≤ q → q ≤ 4 → effectiveCount (some q) = q) ∧
    1 ≤ effectiveCount (some q) ∧ effectiveCount (some q) ≤ 4 := by
  refine ⟨by decide, by decide, by decide, ?_, ?_, ?_, ?_, ?_⟩
  · intro hq
    by_cases hq0 : q = 0
    · subst hq0; decide
    · simp only [effectiveCount, if_neg hq0]
      rw [min_eq_right (by linarith), max_eq_left (by linarith)]
  · intro hq
    have hq0 : q ≠ 0 := by intro h; rw [h] at hq; norm_num at hq
    simp only [effectiveCount, if_neg hq0]
    rw [min_eq_left (by linarith)]
    norm_num
  · intro hq1 hq4
    have hq0 : q ≠ 0 := by intro h; rw [h] at hq1; norm_num at hq1
    simp only [effectiveCount, if_neg hq0]
    rw [min_eq_right hq4, max_eq_right hq1]
  · exact le_max_left 1 _
  · exact max_le (by norm_num) (min_le_left 4 _)

/-- Witness for C6 at concrete out-of-range and in-range counts. -/
theorem c6_clamp_witness :
    effectiveCount (some 0) = 1 ∧ effectiveCount (some 5) = 4 ∧ effectiveCount none = 1 ∧
    ((-3 : Rat) < 1 ∧ effectiveCount (some (-3)) = 1) ∧
    ((4 : Rat) < 9 ∧ effectiveCount (some 9) = 4) ∧
    ((1 : Rat) ≤ 2 ∧ (2 : Rat) ≤ 4 ∧ effectiveCount (some 2) = 2) := by
  have h3 := c6_clamp (-3)
  have h9 := c6_clamp 9
  have h2 := c6_clamp 2
  exact ⟨h3.1, h3.2.1, h3.2.2.1, ⟨by decide, h3.2.2.2.1 (by decide)⟩,
    ⟨by decide, h9.2.2.2.2.1 (by decide)⟩,
    ⟨by decide, by decide, h2.2.2.2.2.2.1 (by decide) (by decide)⟩⟩

/-- C7: a missing or blank (whitespace-only after `trim`) prompt makes
`/api/generate` answer 400 with a JSON error body and dispatch zero
adapter calls — the validation runs before any upstream work. -/
theorem c7_blank_prompt_validation (g : GenBody) (tok : Bool) (results : Nat → JVal)
    (tookMs : Rat)
    (h : g.prompt = none ∨ ∃ s, g.prompt = some s ∧ jsTrim s = "") :
    (generateHandler g tok results tookMs).status = 400 ∧
    (generateHandler g tok results tookMs).body =
      .obj [("error", .str "Missing 'prompt'.")] ∧
    (generateHandler g tok results tookMs).adapterCalls = 0 := by
  have hbad : badPrompt g.prompt = true := by
    rcases h with h | ⟨s, hs, ht⟩
    · rw [h]; rfl
    · rw [hs]; simp [badPrompt, ht]
  simp only [generateHandler]
  rw [if_pos hbad]
  exact ⟨rfl, rfl, rfl⟩

/-- Witness for C7 at a whitespace-only prompt. -/
theorem c7_blank_prompt_validation_witness :
    (generateHandler ⟨some "   ", some 2, none, none⟩ true (fun _ => .obj []) 0).status
      = 400 ∧
    (generateHandler ⟨some "   ", some 2, none, none⟩ true (fun _ => .obj []) 0).body =
      .obj [("error", .str "Missing 'prompt'.")] ∧
    (generateHandler ⟨some "   ", some 2, none, none⟩ true (fun _ => .obj []) 0).adapterCalls
      = 0 :=
  c7_blank_prompt_validation ⟨some "   ", some 2, none, none⟩ true (fun _ => .obj []) 0
    (.inr ⟨"   ", rfl, by decide⟩)

/-- Helper: an in-range integral count passes through the clamp. -/
theorem effectiveCount_natCast (N : Nat) (h2 : 2 ≤ N) (h4 : N ≤ 4) :
    effectiveCount (some (N : Rat)) = (N : Rat) := by
  interval_cases N <;> decide

/-- Helper: `Array.from({length : n})` materialises exactly n slots for
integral n in range. -/
theorem jobCount_natCast (N : Nat) (h2 : 2 ≤ N) (h4 : N ≤ 4) :
    jobCount ((N : Nat) : Rat) = N := by
  interval_cases N <;> decide

/-- Helper: counts 2-4 are not the single-mode count 1. -/
theorem natCast_ne_one (N : Nat) (h2 : 2 ≤ N) (h4 : N ≤ 4) : ¬((N : Rat) = 1) := by
  interval_cases N <;> decide

/-- C5: with a valid prompt, a token, an effective replica count
N ∈ [2,4] and all N adapter calls resolving with documents carrying a
non-nullish id, `/api/generate` answers 200 with mode "batch", count N,
and exactly N items in submission order whose ids are non-null; with
count 1 it answers the distinct mode "single" shape instead. -/
theorem c5_batch_shape (g : GenBody) (results : Nat → JVal) (tookMs : Rat)
    (p : String) (N : Nat)
    (hp : g.prompt = some p) (hpt : jsTrim p ≠ "")
    (hN : g.numImages = some (N : Rat)) (h2 : 2 ≤ N) (h4 : N ≤ 4)
    (hid : ∀ i, i < N → nullish (getField (results i) "id") = false) :
    (generateHandler g true results tookMs).status = 200 ∧
    getField (generateHandler g true results tookMs).body "mode" = .str "batch" ∧
    getField (generateHandler g true results tookMs).body "count" = .num (N : Rat) ∧
    getField (generateHandler g true results tookMs).body "items" =
      .arr ((List.range N).map fun i => mkItem (results i)) ∧
    (∀ i, i < N → getField (mkItem (results i)) "id" = getField (results i) "id" ∧
       getField (mkItem (results i)) "id" ≠ .nul ∧
       getField (mkItem (results i)) "id" ≠ .undefined) ∧
    getField (generateHandler { g with numImages := some 1 } true results tookMs).body
      "mode" = .str "single" := by
  have hpe : p ≠ "" := fun h => hpt (by rw [h]; rfl)
  have hbad : badPrompt g.prompt = false := by
    rw [hp]; simp [badPrompt, hpt, hpe]
  have hec := effectiveCount_natCast N h2 h4
  have hne1 := natCast_ne_one N h2 h4
  have hsingle : getField (generateHandler { g with numImages := some 1 } true results
      tookMs).body "mode" = .str "single" := by
    simp only [generateHandler]
    rw [if_neg (by simp [hbad]), if_neg (by decide)]
    rw [show effectiveCount ({ g with numImages := some 1 } : GenBody).numImages = 1
      from rfl]
    rw [if_pos rfl]
    rfl
  have hgen : generateHandler g true results tookMs =
      ⟨200, .obj [("mode", .str "batch"),
                  ("count", .num (N : Rat)),
                  ("items", .arr ((List.range N).map fun i => mkItem (results i))),
                  ("tookMs", .num tookMs)], N⟩ := by
    simp only [generateHandler]
    rw [if_neg (by simp [hbad]), if_neg (by decide), hN, hec]
    rw [if_neg hne1, jobCount_natCast N h2 h4]
    simp [List.length_map, List.length_range]
  refine ⟨by rw [hgen], by rw [hgen]; rfl, by rw [hgen]; rfl, by rw [hgen]; rfl, ?_, hsingle⟩
  intro i hi
  have hnn := hid i hi
  have hfield : getField (mkItem (results i)) "id" = orNull (getField (results i) "id") := rfl
  have hor : orNull (getField (results i) "id") = getField (results i) "id" := by
    unfold orNull
    rw [if_neg (by simp [hnn])]
  refine ⟨hfield.trans hor, ?_, ?_⟩
  · rw [hfield, hor]
    intro h
    rw [h] at hnn
    exact absurd hnn (by decide)
  · rw [hfield, hor]
    intro h
    rw [h] at hnn
    exact absurd hnn (by decide)

/-- Witness for C5 at N = 2 with concrete adapter documents. -/
theorem c5_batch_shape_witness :
    (generateHandler ⟨some "hi", some ((2 : Nat) : Rat), none, none⟩ true
      (fun _ => .obj [("id", .str "pred")]) 0).status = 200 ∧
    getField (generateHandler ⟨some "hi", some ((2 : Nat) : Rat), none, none⟩ true
      (fun _ => .obj [("id", .str "pred")]) 0).body "mode" = .str "batch" ∧
    getField (generateHandler ⟨some "hi", some ((2 : Nat) : Rat), none, none⟩ true
      (fun _ => .obj [("id", .str "pred")]) 0).body "count" = .num ((2 : Nat) : Rat) ∧
    getField (generateHandler ⟨some "hi", some ((2 : Nat) : Rat), none, none⟩ true
      (fun _ => .obj [("id", .str "pred")]) 0).body "items" =
      .arr ((List.range 2).map fun _ => mkItem (.obj [("id", .str "pred")])) ∧
    getField (mkItem (.obj [("id", .str "pred")])) "id" = .str "pred" ∧
    getField (generateHandler ⟨some "hi", some (1 : Rat), none, none⟩ true
      (fun _ => .obj [("id", .str "pred")]) 0).body "mode" = .str "single" := by
  have h := c5_batch_shape ⟨some "hi", some ((2 : Nat) : Rat), none, none⟩
    (fun _ => .obj [("id", .str "pred")]) 0 "hi" 2 rfl (by decide) rfl (by decide) (by decide)
    (fun i _ => rfl)
  refine ⟨h.1, h.2.1, h.2.2.1, h.2.2.2.1.trans (by rfl), ?_, ?_⟩
  · exact ((h.2.2.2.2.1 0 (by decide)).1).trans (by rfl)
  · exact h.2.2.2.2.2
